import Mathlib

/-!
Formal model of the chat-service broadcasting core
(`services/chat-service/main.go`): the wire `Message` value, the per-client
reader-pump frame stamping, the `Hub` registry and its `run` loop
(register / unregister / broadcast with Redis publish and slow-consumer
eviction), the websocket accept handler, the writer pump, and process
startup.  Buffered Go channels are modelled as a list of buffered values
plus a closed flag; a Go run-time panic (send on a closed channel, close of
a closed channel) is modelled as `none`.
-/

namespace ChatService

/-- The wire message, `type Message struct` (main.go lines 15-19), with JSON
field names `user_id`, `text`, `timestamp`. -/
structure Message where
  UserID : String
  Text : String
  Timestamp : Int
deriving Repr, DecidableEq

/-- State of one `Client` object (main.go lines 31-36): the resolved `user`
string and the buffered outbound channel `send` (its buffered contents and
whether it has been closed).  The channel capacity is `sendCap`. -/
structure ClientState where
  user : String
  sendQueue : List Message
  sendClosed : Bool
deriving Repr, DecidableEq

/-- Capacity of the outbound channel, `make(chan Message, 256)`
(main.go line 149). -/
def sendCap : Nat := 256

/-- State of the `Hub` (main.go lines 21-29): `sessions` holds every
allocated `Client` object keyed by an allocation id (a `Client` object
outlives its removal from the map, as its reader loop still references it);
`clients` is the key set of the registry map `h.clients`; `nextId` is the
next fresh allocation id. -/
structure HubState where
  sessions : List (Nat × ClientState)
  clients : List Nat
  nextId : Nat
deriving Repr, DecidableEq

/-- Look up an allocated client object by id. -/
def lookupIn : List (Nat × ClientState) → Nat → Option ClientState
  | [], _ => none
  | (k, c) :: rest, id => if k = id then some c else lookupIn rest id

/-- Apply `f` to the client object with the given id. -/
def updateIn (f : ClientState → ClientState) :
    List (Nat × ClientState) → Nat → List (Nat × ClientState)
  | [], _ => []
  | (k, c) :: rest, id =>
    if k = id then (k, f c) :: updateIn f rest id
    else (k, c) :: updateIn f rest id

def lookupSession (st : HubState) (id : Nat) : Option ClientState :=
  lookupIn st.sessions id

def updateSession (st : HubState) (id : Nat) (f : ClientState → ClientState) :
    HubState :=
  { st with sessions := updateIn f st.sessions id }

/-- The empty hub, `NewHub` (main.go lines 42-51). -/
def NewHub : HubState := { sessions := [], clients := [], nextId := 0 }

/-- Observable side effects of the service: log lines, Redis operations and
websocket frame writes. -/
inductive Effect where
  | logLine (line : String)
  | redisPing
  | redisPublish (channel : String) (payload : Message)
  | redisSubscribe (channel : String)
  | wsWrite (clientId : Nat) (msg : Message)
deriving Repr, DecidableEq

/-- Per-frame processing of the reader pump, `Client.readPump`
(main.go lines 93-102): after a frame decodes into `msg`, the only mutation
before it is submitted to `h.broadcast` is `msg.UserID = c.user`. -/
def readPumpFrame (user : String) (frame : Message) : Message :=
  { frame with UserID := user }

/-- Gin's `c.DefaultQuery(key, dflt)`: the first query value bound to `key`,
or `dflt` when the key is absent from the request. -/
def defaultQuery (query : List (String × String)) (key dflt : String) :
    String :=
  match query.find? (fun p => p.fst == key) with
  | some p => p.snd
  | none => dflt

/-- The `register` case of `Hub.run` (main.go lines 56-60) together with the
`/ws` handler that allocates the registered client (lines 146-152): a fresh
client object with an empty open 256-buffered `send` channel is created and
inserted into `h.clients`. -/
def registerStep (st : HubState) (user : String) : HubState :=
  { sessions := (st.nextId, ⟨user, [], false⟩) :: st.sessions
    clients := st.nextId :: st.clients
    nextId := st.nextId + 1 }

/-- The `unregister` case of `Hub.run` (main.go lines 61-66):
`delete(h.clients, client)` followed unconditionally by
`close(client.send)`.  Closing an already-closed channel is a Go run-time
panic, modelled as `none` (a nonexistent client object is also `none`; the
program only ever sends existing clients on `h.unregister`). -/
def unregisterStep (st : HubState) (id : Nat) : Option HubState :=
  match lookupSession st id with
  | none => none
  | some c =>
    if c.sendClosed then
      none
    else
      some { updateSession st id (fun cc => { cc with sendClosed := true })
               with clients := st.clients.erase id }

/-- Append a routed message to a client's buffered `send` channel. -/
def enqueueTo (st : HubState) (id : Nat) (msg : Message) : HubState :=
  updateSession st id (fun c => { c with sendQueue := c.sendQueue ++ [msg] })

/-- The `default` branch of the broadcast loop (main.go lines 77-80):
`close(client.send); delete(h.clients, client)`. -/
def evictClient (st : HubState) (id : Nat) : HubState :=
  { updateSession st id (fun c => { c with sendClosed := true })
      with clients := st.clients.erase id }

/-- The fan-out loop of the `broadcast` case (main.go lines 73-81): iterate
the registry snapshot; `select case client.send <- msg` succeeds when the
buffer has room, takes `default` (evict) when the buffer is full, and
panics when the channel is already closed (a send on a closed channel is a
ready, panicking case, chosen over `default`), modelled as `none`.  A
registry key without an allocated object is likewise `none`. -/
def broadcastLoop (msg : Message) : HubState → List Nat → Option HubState
  | st, [] => some st
  | st, id :: rest =>
    match lookupSession st id with
    | none => none
    | some c =>
      if c.sendClosed then none
      else if c.sendQueue.length < sendCap then
        broadcastLoop msg (enqueueTo st id msg) rest
      else
        broadcastLoop msg (evictClient st id) rest

/-- The `broadcast` case of `Hub.run` (main.go lines 67-82).  `pubErr` is
the error state of the `*IntCmd` returned by `h.redis.Publish`; the source
discards that return value (and the `json.Marshal` error), so the step
cannot depend on it. -/
def broadcastStep (st : HubState) (msg : Message) (pubErr : Bool) :
    Option HubState :=
  broadcastLoop msg st st.clients

/-- One iteration of `Client.writePump` (main.go lines 106-113): receive one
buffered message from `send` and write it to the connection.  With an empty
buffer the loop blocks (open channel) or exits (closed channel); neither
changes hub state, so no step is taken. -/
def writePumpStep (st : HubState) (id : Nat) :
    Option (HubState × Message) :=
  match lookupSession st id with
  | none => none
  | some c =>
    match c.sendQueue with
    | [] => none
    | m :: rest =>
      some (updateSession st id (fun cc => { cc with sendQueue := rest }), m)

/-- Events the hub state can take a step on: a websocket accept (which
registers a fresh client), an unregister from a dying reader loop, a routed
message (`h.broadcast`), and the writer pump draining one message. -/
inductive HubEvent where
  | accept (query : List (String × String))
  | unregister (id : Nat)
  | route (msg : Message) (pubErr : Bool)
  | drain (id : Nat)

/-- One step of the whole service, with the effects it emits (log lines per
main.go lines 59 and 65, the Redis publish of line 70, the frame write of
line 109). -/
def hubStep (st : HubState) (e : HubEvent) :
    Option (HubState × List Effect) :=
  match e with
  | .accept q =>
    let st' := registerStep st (defaultQuery q "user" "anonymous")
    some (st', [.logLine ("Client registered. Total: " ++
      toString st'.clients.length)])
  | .unregister id =>
    (unregisterStep st id).map (fun st' =>
      (st', [.logLine ("Client unregistered. Total: " ++
        toString st'.clients.length)]))
  | .route msg pubErr =>
    (broadcastStep st msg pubErr).map (fun st' =>
      (st', [.redisPublish "chat" msg]))
  | .drain id =>
    (writePumpStep st id).map (fun p => (p.1, [.wsWrite id p.2]))

/-- The effects a step emits (empty when the step panics or is not
enabled). -/
def hubStepEffects (st : HubState) (e : HubEvent) : List Effect :=
  ((hubStep st e).map Prod.snd).getD []

/-- Process startup, `main` lines 117-129: create the Redis client and
`Ping` it; on a ping error `log.Fatalf` exits the process before the hub,
the routes or any listener exist — modelled as `none`. -/
def mainStartup (pingOk : Bool) : Option (HubState × List Effect) :=
  if pingOk then some (NewHub, [.redisPing, .logLine "Connected to Redis"])
  else none

/-- The effects startup emits. -/
def mainStartupEffects (pingOk : Bool) : List Effect :=
  ((mainStartup pingOk).map Prod.snd).getD []

/-- The step relation between hub states. -/
inductive Step : HubState → HubState → Prop where
  | mk (e : HubEvent) (st st' : HubState) (effs : List Effect)
      (h : hubStep st e = some (st', effs)) : Step st st'

/-- States reachable from the freshly constructed hub. -/
def Reachable (st : HubState) : Prop :=
  Relation.ReflTransGen Step NewHub st

/-- A registered id denotes an allocated client whose channel is open. -/
def regOpen (st : HubState) (id : Nat) : Bool :=
  match lookupSession st id with
  | some c => !c.sendClosed
  | none => false

/-- The hub invariant: the registry key list and the allocation key list
are duplicate-free, every registered id denotes an allocated client with an
open channel, and every allocated id is below the fresh counter. -/
def Inv (st : HubState) : Prop :=
  st.clients.Nodup ∧
  (st.sessions.map Prod.fst).Nodup ∧
  (∀ id ∈ st.clients, regOpen st id = true) ∧
  (∀ id ∈ st.sessions.map Prod.fst, id < st.nextId)

instance (st : HubState) : Decidable (Inv st) := by
  unfold Inv
  infer_instance

/-- Recognizer for log effects (what the service reports to its
observability collaborator, `log.Printf`). -/
def isLogLine : Effect → Bool
  | .logLine _ => true
  | _ => false

/-- A sample frame as routed for client "bob". -/
def demoMsg : Message := ⟨"bob", "hi", 0⟩

/-- The hub after "bob" connected and `j` copies of `demoMsg` were routed
without the writer draining: one registered client whose buffer holds `j`
messages. -/
def stateBob (j : Nat) : HubState :=
  { sessions := [(0, ⟨"bob", List.replicate j demoMsg, false⟩)]
    clients := [0]
    nextId := 1 }

/-- The hub after "bob" was evicted for a full buffer: his channel is
closed, he is gone from the registry, but the `Client` object (still
referenced by his reader loop) remains. -/
def stateBobEvicted : HubState :=
  { sessions := [(0, ⟨"bob", List.replicate sendCap demoMsg, true⟩)]
    clients := []
    nextId := 1 }

/-- Route `demoMsg` n times in sequence (publish succeeding); if a routing
step ever panicked the state would stop changing (no step in the executions
below does). -/
def routeIter : Nat → HubState → HubState
  | 0, st => st
  | n + 1, st =>
    match broadcastStep (routeIter n st) demoMsg true with
    | some st' => st'
    | none => routeIter n st

/-- The hub right after "alice" connected. -/
def stAlice : HubState := registerStep NewHub "alice"

/-- The hub after "user1" and "user2" connected. -/
def stPair : HubState := registerStep (registerStep NewHub "user1") "user2"

/-- A hub with a slow consumer: "bob" is registered with a full buffer,
"alice" is registered with an empty one. -/
def stTwoFull : HubState :=
  { sessions := [(0, ⟨"bob", List.replicate sendCap demoMsg, false⟩),
                 (1, ⟨"alice", [], false⟩)]
    clients := [0, 1]
    nextId := 2 }

lemma lookupIn_updateIn_self (f : ClientState → ClientState)
    (l : List (Nat × ClientState)) (id : Nat) :
    lookupIn (updateIn f l id) id = (lookupIn l id).map f := by
  induction l with
  | nil => simp [lookupIn, updateIn]
  | cons p rest ih =>
    obtain ⟨k, c⟩ := p
    by_cases hk : k = id <;> simp [lookupIn, updateIn, hk, ih]

lemma lookupIn_updateIn_ne (f : ClientState → ClientState)
    (l : List (Nat × ClientState)) (id j : Nat) (h : j ≠ id) :
    lookupIn (updateIn f l id) j = lookupIn l j := by
  induction l with
  | nil => simp [lookupIn, updateIn]
  | cons p rest ih =>
    obtain ⟨k, c⟩ := p
    by_cases hk : k = id
    · subst hk
      simp [lookupIn, updateIn, Ne.symm h, ih]
    · have hu : updateIn f ((k, c) :: rest) id = (k, c) :: updateIn f rest id := by
        simp [updateIn, hk]
      rw [hu]
      by_cases hkj : k = j <;> simp [lookupIn, hkj, ih]

lemma updateIn_map_fst (f : ClientState → ClientState)
    (l : List (Nat × ClientState)) (id : Nat) :
    (updateIn f l id).map Prod.fst = l.map Prod.fst := by
  induction l with
  | nil => simp [updateIn]
  | cons p rest ih =>
    obtain ⟨k, c⟩ := p
    by_cases hk : k = id <;> simp [updateIn, hk, ih]

lemma lookupIn_mem_keys {l : List (Nat × ClientState)} {id : Nat}
    {c : ClientState} (h : lookupIn l id = some c) :
    id ∈ l.map Prod.fst := by
  induction l with
  | nil => simp [lookupIn] at h
  | cons p rest ih =>
    obtain ⟨k, cc⟩ := p
    by_cases hk : k = id
    · simp [hk]
    · simp [lookupIn, hk] at h
      simpa using Or.inr (ih h)

lemma lookupIn_not_mem_keys {l : List (Nat × ClientState)} {id : Nat}
    (h : id ∉ l.map Prod.fst) : lookupIn l id = none := by
  induction l with
  | nil => rfl
  | cons p rest ih =>
    obtain ⟨k, cc⟩ := p
    rw [List.map_cons] at h
    simp only [List.mem_cons, not_or] at h
    simp [lookupIn, Ne.symm h.1, ih h.2]

lemma regOpen_iff (st : HubState) (id : Nat) :
    regOpen st id = true ↔
      ∃ c, lookupSession st id = some c ∧ c.sendClosed = false := by
  unfold regOpen
  cases h : lookupSession st id with
  | none => simp
  | some c => simp [h]

lemma lookupSession_enqueueTo_self (st : HubState) (id : Nat)
    (msg : Message) :
    lookupSession (enqueueTo st id msg) id =
      (lookupSession st id).map
        (fun c => { c with sendQueue := c.sendQueue ++ [msg] }) := by
  simp [lookupSession, enqueueTo, updateSession, lookupIn_updateIn_self]

lemma lookupSession_enqueueTo_ne (st : HubState) (id j : Nat)
    (msg : Message) (h : j ≠ id) :
    lookupSession (enqueueTo st id msg) j = lookupSession st j := by
  simp [lookupSession, enqueueTo, updateSession, lookupIn_updateIn_ne _ _ _ _ h]

lemma lookupSession_evictClient_self (st : HubState) (id : Nat) :
    lookupSession (evictClient st id) id =
      (lookupSession st id).map (fun c => { c with sendClosed := true }) := by
  simp [lookupSession, evictClient, updateSession, lookupIn_updateIn_self]

lemma lookupSession_evictClient_ne (st : HubState) (id j : Nat)
    (h : j ≠ id) :
    lookupSession (evictClient st id) j = lookupSession st j := by
  simp [lookupSession, evictClient, updateSession, lookupIn_updateIn_ne _ _ _ _ h]

lemma enqueueTo_clients (st : HubState) (id : Nat) (msg : Message) :
    (enqueueTo st id msg).clients = st.clients := rfl

lemma evictClient_clients (st : HubState) (id : Nat) :
    (evictClient st id).clients = st.clients.erase id := rfl

lemma enqueueTo_nextId (st : HubState) (id : Nat) (msg : Message) :
    (enqueueTo st id msg).nextId = st.nextId := rfl

lemma evictClient_nextId (st : HubState) (id : Nat) :
    (evictClient st id).nextId = st.nextId := rfl

lemma enqueueTo_keys (st : HubState) (id : Nat) (msg : Message) :
    (enqueueTo st id msg).sessions.map Prod.fst =
      st.sessions.map Prod.fst := by
  simp [enqueueTo, updateSession, updateIn_map_fst]

lemma evictClient_keys (st : HubState) (id : Nat) :
    (evictClient st id).sessions.map Prod.fst =
      st.sessions.map Prod.fst := by
  simp [evictClient, updateSession, updateIn_map_fst]

lemma regOpen_congr {st st' : HubState} {j : Nat}
    (h : lookupSession st' j = lookupSession st j) :
    regOpen st' j = regOpen st j := by
  unfold regOpen
  rw [h]

/-- Full characterization of the fan-out loop over a duplicate-free snapshot
of registered, open sessions: it never panics, leaves the allocation keys
and fresh counter alone, only shrinks the registry, leaves sessions outside
the snapshot untouched, appends the message once to every non-full session
of the snapshot, and closes and deregisters every full one. -/
lemma broadcastLoop_spec (msg : Message) (ids : List Nat) :
    ∀ (st : HubState), ids.Nodup → st.clients.Nodup →
      (∀ j ∈ ids, regOpen st j = true) →
      ∃ st', broadcastLoop msg st ids = some st' ∧
        st'.nextId = st.nextId ∧
        st'.sessions.map Prod.fst = st.sessions.map Prod.fst ∧
        st'.clients.Sublist st.clients ∧
        (∀ j, j ∉ ids →
          lookupSession st' j = lookupSession st j ∧
          (j ∈ st'.clients ↔ j ∈ st.clients)) ∧
        (∀ j ∈ ids, ∀ c, lookupSession st j = some c →
          (c.sendQueue.length < sendCap →
            lookupSession st' j =
              some { c with sendQueue := c.sendQueue ++ [msg] } ∧
            (j ∈ st'.clients ↔ j ∈ st.clients)) ∧
          (¬ c.sendQueue.length < sendCap →
            lookupSession st' j = some { c with sendClosed := true } ∧
            j ∉ st'.clients)) := by
  induction ids with
  | nil =>
    intro st _ _ _
    exact ⟨st, rfl, rfl, rfl, List.Sublist.refl _,
      fun j _ => ⟨rfl, Iff.rfl⟩, by simp⟩
  | cons id rest ih =>
    intro st hnd hcl hopen
    have hid : regOpen st id = true := hopen id (by simp)
    obtain ⟨c, hc, hcc⟩ := (regOpen_iff st id).mp hid
    have hidrest : id ∉ rest := (List.nodup_cons.mp hnd).1
    have hrestnd : rest.Nodup := (List.nodup_cons.mp hnd).2
    by_cases hroom : c.sendQueue.length < sendCap
    · -- room in the buffer: the select send case fires
      have hopen1 : ∀ j ∈ rest, regOpen (enqueueTo st id msg) j = true := by
        intro j hj
        have hji : j ≠ id := fun h => hidrest (h ▸ hj)
        rw [regOpen_congr (lookupSession_enqueueTo_ne st id j msg hji)]
        exact hopen j (by simp [hj])
      have hcl1 : (enqueueTo st id msg).clients.Nodup := by
        rw [enqueueTo_clients]; exact hcl
      obtain ⟨st', hbl, hnx, hkeys, hsub, huntouched, hper⟩ :=
        ih (enqueueTo st id msg) hrestnd hcl1 hopen1
      refine ⟨st', ?_, ?_, ?_, ?_, ?_, ?_⟩
      · simp only [broadcastLoop, hc, hcc]
        simp [hroom, hbl]
      · rw [hnx, enqueueTo_nextId]
      · rw [hkeys, enqueueTo_keys]
      · have := hsub
        rwa [enqueueTo_clients] at this
      · intro j hj
        have hjr : j ∉ rest := fun h => hj (by simp [h])
        have hji : j ≠ id := fun h => hj (by simp [h])
        obtain ⟨hl, hm⟩ := huntouched j hjr
        refine ⟨?_, ?_⟩
        · rw [hl, lookupSession_enqueueTo_ne st id j msg hji]
        · rw [hm, enqueueTo_clients]
      · intro j hj c0 hc0
        rcases List.mem_cons.mp hj with hji | hjr
        · subst hji
          have hcc0 : c0 = c := by
            rw [hc0] at hc; exact (Option.some.injEq _ _ ▸ hc).symm ▸ rfl
          subst hcc0
          refine ⟨fun _ => ?_, fun hfull => absurd hroom hfull⟩
          obtain ⟨hl, hm⟩ := huntouched j hidrest
          constructor
          · rw [hl, lookupSession_enqueueTo_self, hc0]
            rfl
          · rw [hm, enqueueTo_clients]
        · have hji : j ≠ id := fun h => hidrest (h ▸ hjr)
          have hc1 : lookupSession (enqueueTo st id msg) j = some c0 := by
            rw [lookupSession_enqueueTo_ne st id j msg hji, hc0]
          obtain ⟨hroomcase, hfullcase⟩ := hper j hjr c0 hc1
          refine ⟨fun hr => ?_, fun hf => ?_⟩
          · obtain ⟨hl, hm⟩ := hroomcase hr
            exact ⟨hl, by rw [hm, enqueueTo_clients]⟩
          · exact hfullcase hf
    · -- buffer full: the select default case fires, evicting the session
      have hopen1 : ∀ j ∈ rest, regOpen (evictClient st id) j = true := by
        intro j hj
        have hji : j ≠ id := fun h => hidrest (h ▸ hj)
        rw [regOpen_congr (lookupSession_evictClient_ne st id j hji)]
        exact hopen j (by simp [hj])
      have hcl1 : (evictClient st id).clients.Nodup := by
        rw [evictClient_clients]; exact hcl.erase id
      obtain ⟨st', hbl, hnx, hkeys, hsub, huntouched, hper⟩ :=
        ih (evictClient st id) hrestnd hcl1 hopen1
      have hsub' : st'.clients.Sublist st.clients := by
        have h1 := hsub
        rw [evictClient_clients] at h1
        exact h1.trans (st.clients.erase_sublist id)
      refine ⟨st', ?_, ?_, ?_, hsub', ?_, ?_⟩
      · simp only [broadcastLoop, hc, hcc]
        simp [hroom, hbl]
      · rw [hnx, evictClient_nextId]
      · rw [hkeys, evictClient_keys]
      · intro j hj
        have hjr : j ∉ rest := fun h => hj (by simp [h])
        have hji : j ≠ id := fun h => hj (by simp [h])
        obtain ⟨hl, hm⟩ := huntouched j hjr
        refine ⟨?_, ?_⟩
        · rw [hl, lookupSession_evictClient_ne st id j hji]
        · rw [hm, evictClient_clients, hcl.mem_erase_iff]
          simp [hji]
      · intro j hj c0 hc0
        rcases List.mem_cons.mp hj with hji | hjr
        · subst hji
          have hcc0 : c0 = c := by
            rw [hc0] at hc; exact (Option.some.injEq _ _ ▸ hc).symm ▸ rfl
          subst hcc0
          refine ⟨fun hr => absurd hr hroom, fun _ => ?_⟩
          obtain ⟨hl, hm⟩ := huntouched j hidrest
          constructor
          · rw [hl, lookupSession_evictClient_self, hc0]
            rfl
          · rw [hm, evictClient_clients, hcl.mem_erase_iff]
            simp
        · have hji : j ≠ id := fun h => hidrest (h ▸ hjr)
          have hc1 : lookupSession (evictClient st id) j = some c0 := by
            rw [lookupSession_evictClient_ne st id j hji, hc0]
          obtain ⟨hroomcase, hfullcase⟩ := hper j hjr c0 hc1
          refine ⟨fun hr => ?_, fun hf => ?_⟩
          · obtain ⟨hl, hm⟩ := hroomcase hr
            refine ⟨hl, ?_⟩
            rw [hm, evictClient_clients, hcl.mem_erase_iff]
            simp [hji]
          · exact hfullcase hf

lemma inv_NewHub : Inv NewHub :=
  ⟨List.nodup_nil, List.nodup_nil, by simp [NewHub], by simp [NewHub]⟩

lemma inv_registerStep (st : HubState) (u : String) (h : Inv st) :
    Inv (registerStep st u) := by
  obtain ⟨hcl, hkeys, hopen, hlt⟩ := h
  have hfresh_sess : st.nextId ∉ st.sessions.map Prod.fst :=
    fun hmem => lt_irrefl _ (hlt _ hmem)
  have hsub : ∀ id ∈ st.clients, id ∈ st.sessions.map Prod.fst := by
    intro id hid
    obtain ⟨c, hc, _⟩ := (regOpen_iff st id).mp (hopen id hid)
    exact lookupIn_mem_keys hc
  have hfresh_cl : st.nextId ∉ st.clients :=
    fun hmem => hfresh_sess (hsub _ hmem)
  have hkeyeq : (registerStep st u).sessions.map Prod.fst =
      st.nextId :: st.sessions.map Prod.fst := rfl
  refine ⟨List.nodup_cons.mpr ⟨hfresh_cl, hcl⟩, ?_, ?_, ?_⟩
  · rw [hkeyeq]
    exact List.nodup_cons.mpr ⟨hfresh_sess, hkeys⟩
  · intro id hid
    rcases List.mem_cons.mp hid with h | h
    · subst h
      simp [regOpen, lookupSession, registerStep, lookupIn]
    · have hne : st.nextId ≠ id := fun he => hfresh_cl (he ▸ h)
      have hl : lookupSession (registerStep st u) id = lookupSession st id := by
        simp [lookupSession, registerStep, lookupIn, hne]
      rw [regOpen_congr hl]
      exact hopen id h
  · intro id hid
    rw [hkeyeq] at hid
    rcases List.mem_cons.mp hid with h | h
    · have : (registerStep st u).nextId = st.nextId + 1 := rfl
      omega
    · have h1 := hlt id h
      have h2 : (registerStep st u).nextId = st.nextId + 1 := rfl
      omega

lemma inv_unregisterStep {st st' : HubState} {id : Nat} (h : Inv st)
    (hs : unregisterStep st id = some st') : Inv st' := by
  obtain ⟨hcl, hkeys, hopen, hlt⟩ := h
  unfold unregisterStep at hs
  cases hc : lookupSession st id with
  | none => rw [hc] at hs; exact Option.noConfusion hs
  | some c =>
    rw [hc] at hs
    have hs1 : (if c.sendClosed = true then none
        else some { updateSession st id
            (fun cc => { cc with sendClosed := true })
          with clients := st.clients.erase id }) = some st' := hs
    cases hcb : c.sendClosed with
    | true => rw [hcb] at hs1; simp at hs1
    | false =>
      rw [hcb] at hs1
      simp only [Bool.false_eq_true, if_false, Option.some.injEq] at hs1
      subst hs1
      refine ⟨hcl.erase id, ?_, ?_, ?_⟩
      · show ((updateIn _ st.sessions id).map Prod.fst).Nodup
        rw [updateIn_map_fst]
        exact hkeys
      · intro j hj
        have hjm := (hcl.mem_erase_iff).mp hj
        have hji : j ≠ id := hjm.1
        have hl : lookupIn (updateIn
            (fun cc => { cc with sendClosed := true }) st.sessions id) j =
            lookupIn st.sessions j :=
          lookupIn_updateIn_ne _ _ _ _ hji
        have hro : regOpen
            { updateSession st id (fun cc => { cc with sendClosed := true })
                with clients := st.clients.erase id } j = regOpen st j := by
          unfold regOpen lookupSession
          simp only [updateSession]
          rw [hl]
        rw [hro]
        exact hopen j hjm.2
      · intro j hj
        show j < st.nextId
        have : ((updateIn (fun cc => { cc with sendClosed := true })
            st.sessions id).map Prod.fst) = st.sessions.map Prod.fst :=
          updateIn_map_fst _ _ _
        rw [show ({ updateSession st id
            (fun cc => { cc with sendClosed := true })
              with clients := st.clients.erase id } : HubState).sessions =
            updateIn (fun cc => { cc with sendClosed := true })
              st.sessions id from rfl, this] at hj
        exact hlt j hj

lemma inv_broadcastStep {st st' : HubState} {msg : Message} {pubErr : Bool}
    (h : Inv st) (hs : broadcastStep st msg pubErr = some st') : Inv st' := by
  obtain ⟨hcl, hkeys, hopen, hlt⟩ := h
  obtain ⟨st'', hbl, hnx, hk, hsub, huntouched, hper⟩ :=
    broadcastLoop_spec msg st.clients st hcl hcl hopen
  unfold broadcastStep at hs
  rw [hbl] at hs
  have heq : st'' = st' := Option.some.inj hs
  subst heq
  refine ⟨hsub.nodup hcl, ?_, ?_, ?_⟩
  · rw [hk]; exact hkeys
  · intro j hj
    by_cases hjin : j ∈ st.clients
    · obtain ⟨c, hc, hcc⟩ := (regOpen_iff st j).mp (hopen j hjin)
      obtain ⟨hroomc, hfullc⟩ := hper j hjin c hc
      by_cases hr : c.sendQueue.length < sendCap
      · obtain ⟨hl, _⟩ := hroomc hr
        simp [regOpen, hl, hcc]
      · obtain ⟨_, hnm⟩ := hfullc hr
        exact absurd hj hnm
    · obtain ⟨_, hm⟩ := huntouched j hjin
      exact absurd (hm.mp hj) hjin
  · intro j hj
    rw [hk] at hj
    rw [hnx]
    exact hlt j hj

lemma inv_writePumpStep {st st' : HubState} {id : Nat} {m : Message}
    (h : Inv st) (hs : writePumpStep st id = some (st', m)) : Inv st' := by
  obtain ⟨hcl, hkeys, hopen, hlt⟩ := h
  unfold writePumpStep at hs
  cases hc : lookupSession st id with
  | none => rw [hc] at hs; exact Option.noConfusion hs
  | some c =>
    rw [hc] at hs
    have hs1 : (match c.sendQueue with
        | [] => none
        | m0 :: rest =>
          some (updateSession st id
            (fun cc => { cc with sendQueue := rest }), m0)) =
        some (st', m) := hs
    cases hq : c.sendQueue with
    | nil => rw [hq] at hs1; exact Option.noConfusion hs1
    | cons m0 rest =>
      rw [hq] at hs1
      have hs2 : some (updateSession st id
          (fun cc => { cc with sendQueue := rest }), m0) = some (st', m) := hs1
      have hpair := Option.some.inj hs2
      have hst := congrArg Prod.fst hpair
      simp only at hst
      rw [← hst]
      refine ⟨hcl, ?_, ?_, ?_⟩
      · show ((updateIn _ st.sessions id).map Prod.fst).Nodup
        rw [updateIn_map_fst]
        exact hkeys
      · intro j hj
        by_cases hji : j = id
        · subst hji
          have hl : lookupSession
              (updateSession st j (fun cc => { cc with sendQueue := rest })) j =
              some { c with sendQueue := rest } := by
            unfold lookupSession updateSession
            rw [lookupIn_updateIn_self]
            simp [show lookupIn st.sessions j = some c from hc]
          have hro := hopen j hj
          rw [regOpen_iff] at hro
          obtain ⟨c0, hc0, hcc0⟩ := hro
          rw [show lookupSession st j = some c from hc] at hc0
          have : c0 = c := (Option.some.inj hc0).symm ▸ rfl
          subst this
          simp [regOpen, hl, hcc0]
        · have hl : lookupSession
              (updateSession st id (fun cc => { cc with sendQueue := rest })) j =
              lookupSession st j := by
            unfold lookupSession updateSession
            exact lookupIn_updateIn_ne _ _ _ _ hji
          rw [regOpen_congr hl]
          exact hopen j hj
      · intro j hj
        show j < st.nextId
        rw [show (updateSession st id
            (fun cc => { cc with sendQueue := rest })).sessions =
            updateIn (fun cc => { cc with sendQueue := rest })
              st.sessions id from rfl, updateIn_map_fst] at hj
        exact hlt j hj

lemma inv_hubStep {st st' : HubState} {e : HubEvent} {effs : List Effect}
    (h : Inv st) (hs : hubStep st e = some (st', effs)) : Inv st' := by
  cases e with
  | accept q =>
    have hs1 : some (registerStep st (defaultQuery q "user" "anonymous"),
        ([Effect.logLine ("Client registered. Total: " ++
          toString (registerStep st
            (defaultQuery q "user" "anonymous")).clients.length)] :
          List Effect)) = some (st', effs) := hs
    have hst := congrArg Prod.fst (Option.some.inj hs1)
    simp only at hst
    rw [← hst]
    exact inv_registerStep st _ h
  | unregister id =>
    have hs1 : (unregisterStep st id).map (fun st0 =>
        (st0, ([Effect.logLine ("Client unregistered. Total: " ++
          toString st0.clients.length)] : List Effect))) =
        some (st', effs) := hs
    cases hu : unregisterStep st id with
    | none => rw [hu] at hs1; exact Option.noConfusion hs1
    | some st0 =>
      rw [hu] at hs1
      have hst := congrArg Prod.fst (Option.some.inj hs1)
      simp only at hst
      rw [← hst]
      exact inv_unregisterStep h hu
  | route msg pubErr =>
    have hs1 : (broadcastStep st msg pubErr).map (fun st0 =>
        (st0, ([Effect.redisPublish "chat" msg] : List Effect))) =
        some (st', effs) := hs
    cases hb : broadcastStep st msg pubErr with
    | none => rw [hb] at hs1; exact Option.noConfusion hs1
    | some st0 =>
      rw [hb] at hs1
      have hst := congrArg Prod.fst (Option.some.inj hs1)
      simp only at hst
      rw [← hst]
      exact inv_broadcastStep h hb
  | drain id =>
    have hs1 : (writePumpStep st id).map (fun p =>
        (p.1, ([Effect.wsWrite id p.2] : List Effect))) =
        some (st', effs) := hs
    cases hw : writePumpStep st id with
    | none => rw [hw] at hs1; exact Option.noConfusion hs1
    | some p =>
      rw [hw] at hs1
      have hst := congrArg Prod.fst (Option.some.inj hs1)
      simp only at hst
      rw [← hst]
      exact inv_writePumpStep h (by rw [hw])

lemma inv_of_reachable {st : HubState} (h : Reachable st) : Inv st := by
  induction h with
  | refl => exact inv_NewHub
  | tail _ hstep ih =>
    obtain ⟨e, _, _, effs, hs⟩ := hstep
    exact inv_hubStep ih hs

lemma broadcastStep_stateBob (j : Nat) (hj : j < sendCap) :
    broadcastStep (stateBob j) demoMsg true = some (stateBob (j + 1)) := by
  have henq : enqueueTo (stateBob j) 0 demoMsg = stateBob (j + 1) := by
    simp [enqueueTo, updateSession, stateBob, updateIn, List.replicate_succ']
  show broadcastLoop demoMsg (stateBob j) [0] = some (stateBob (j + 1))
  have hlk : lookupSession (stateBob j) 0 =
      some ⟨"bob", List.replicate j demoMsg, false⟩ := rfl
  simp only [broadcastLoop, hlk]
  rw [if_neg (by simp)]
  rw [if_pos (by simpa using hj)]
  rw [henq]

lemma routeIter_fill (n : Nat) (hn : n ≤ sendCap) :
    routeIter n (stateBob 0) = stateBob n := by
  induction n with
  | zero => rfl
  | succ k ih =>
    have hk : k < sendCap := by omega
    have ih' := ih (by omega)
    simp only [routeIter, ih', broadcastStep_stateBob k hk]

lemma broadcastStep_stateBob_full :
    broadcastStep (stateBob sendCap) demoMsg true = some stateBobEvicted := by
  show broadcastLoop demoMsg (stateBob sendCap) [0] = some stateBobEvicted
  have hlk : lookupSession (stateBob sendCap) 0 =
      some ⟨"bob", List.replicate sendCap demoMsg, false⟩ := rfl
  simp only [broadcastLoop, hlk]
  rw [if_neg (by simp)]
  rw [if_neg (by simp)]
  have hev : evictClient (stateBob sendCap) 0 = stateBobEvicted := by
    simp [evictClient, updateSession, stateBob, stateBobEvicted, updateIn]
  rw [hev]

lemma routeIter_257 :
    routeIter 257 (registerStep NewHub "bob") = stateBobEvicted := by
  have h0 : registerStep NewHub "bob" = stateBob 0 := rfl
  have h256 : routeIter 256 (stateBob 0) = stateBob 256 :=
    routeIter_fill 256 (by simp [sendCap])
  rw [h0, show (257 : Nat) = 256 + 1 from rfl, routeIter, h256,
    show (256 : Nat) = sendCap from rfl, broadcastStep_stateBob_full]

/-- C1 counterexample: client "alice" sends a frame omitting `timestamp`
(decoded as 0).  The reader loop stamps only `UserID`; the routed Message
delivered back into alice's own queue still carries timestamp 0 — not a
non-zero, server-assigned timestamp as the claim states. -/
theorem C1_counterexample :
    (broadcastStep (registerStep NewHub "alice")
        (readPumpFrame "alice" ⟨"", "Hello World", 0⟩) true).map
      (fun st => lookupSession st 0) =
      some (some ⟨"alice", [⟨"alice", "Hello World", 0⟩], false⟩) ∧
    (⟨"alice", "Hello World", 0⟩ : Message).Timestamp = 0 := by
  constructor
  · rfl
  · rfl

/-- C1 (amended): before routing, the server overwrites only the
participant id; the timestamp (and text) are not overwritten — the Message
delivered to a registered session carries exactly the client-supplied
timestamp (zero when omitted) with the server-assigned participant id. -/
theorem C1_amended_stamps_only_participant_id (st : HubState) (hInv : Inv st)
    (user : String) (frame : Message) (id : Nat) (hid : id ∈ st.clients)
    (c : ClientState) (hc : lookupSession st id = some c)
    (hroom : c.sendQueue.length < sendCap) (pubErr : Bool) :
    (readPumpFrame user frame).UserID = user ∧
    (readPumpFrame user frame).Timestamp = frame.Timestamp ∧
    (readPumpFrame user frame).Text = frame.Text ∧
    ∃ st', broadcastStep st (readPumpFrame user frame) pubErr = some st' ∧
      lookupSession st' id = some { c with
        sendQueue := c.sendQueue ++ [readPumpFrame user frame] } := by
  obtain ⟨hcl, hkeys, hopen, hlt⟩ := hInv
  obtain ⟨st', hbl, _, _, _, _, hper⟩ :=
    broadcastLoop_spec (readPumpFrame user frame) st.clients st hcl hcl hopen
  exact ⟨rfl, rfl, rfl, st', hbl, ((hper id hid c hc).1 hroom).1⟩

/-- Witness for C1 (amended) at a concrete state and frame. -/
theorem C1_amended_witness :
    (readPumpFrame "alice" ⟨"x", "hi", 3⟩).UserID = "alice" ∧
    (readPumpFrame "alice" ⟨"x", "hi", 3⟩).Timestamp =
      (⟨"x", "hi", 3⟩ : Message).Timestamp ∧
    (readPumpFrame "alice" ⟨"x", "hi", 3⟩).Text =
      (⟨"x", "hi", 3⟩ : Message).Text ∧
    ∃ st', broadcastStep stAlice (readPumpFrame "alice" ⟨"x", "hi", 3⟩) true =
        some st' ∧
      lookupSession st' 0 = some { (⟨"alice", [], false⟩ : ClientState) with
        sendQueue := [] ++ [readPumpFrame "alice" ⟨"x", "hi", 3⟩] } :=
  C1_amended_stamps_only_participant_id stAlice (by decide) "alice"
    ⟨"x", "hi", 3⟩ 0 (by decide) ⟨"alice", [], false⟩ rfl (by decide) true

/-- C2: the program contains no external-bus subscriber at all.  Neither
startup (`main` performs only a Ping) nor any step of the service (register,
unregister, route, writer drain) ever performs a Redis subscribe on any
channel; consequently a Message published on the bus channel by another
instance is never received, let alone distributed to local sessions. -/
theorem C2_no_subscriber_exists (ch : String) :
    (∀ pingOk : Bool, Effect.redisSubscribe ch ∉ mainStartupEffects pingOk) ∧
    (∀ (st : HubState) (e : HubEvent),
      Effect.redisSubscribe ch ∉ hubStepEffects st e) := by
  constructor
  · intro pingOk
    cases pingOk <;> simp [mainStartupEffects, mainStartup]
  · intro st e
    cases e with
    | accept q => simp [hubStepEffects, hubStep]
    | unregister id =>
      simp only [hubStepEffects, hubStep]
      cases unregisterStep st id <;> simp
    | route msg pubErr =>
      simp only [hubStepEffects, hubStep]
      cases broadcastStep st msg pubErr <;> simp
    | drain id =>
      simp only [hubStepEffects, hubStep]
      cases writePumpStep st id <;> simp

/-- C3 counterexample: with the external bus unreachable at startup the
Ping fails and `log.Fatalf` terminates the process before the hub or any
endpoint exists (modelled as `none`): the service does not accept
connections, so local connect/broadcast cannot succeed, contradicting the
claim's first half. -/
theorem C3_counterexample : mainStartup false = none := rfl

/-- C3 (amended): if the bus ping fails at startup the process exits
fatally and serves nothing.  Once running, a failed publish during routing
does not prevent local delivery: the routing step is independent of the
publish result and still enqueues the Message to every registered session
with buffer room. -/
theorem C3_amended_local_delivery_despite_publish_failure (st : HubState)
    (hInv : Inv st) (msg : Message) :
    mainStartup false = none ∧
    broadcastStep st msg false = broadcastStep st msg true ∧
    ∃ st', broadcastStep st msg false = some st' ∧
      ∀ id ∈ st.clients, ∀ c, lookupSession st id = some c →
        c.sendQueue.length < sendCap →
        lookupSession st' id =
          some { c with sendQueue := c.sendQueue ++ [msg] } := by
  obtain ⟨hcl, hkeys, hopen, hlt⟩ := hInv
  obtain ⟨st', hbl, _, _, _, _, hper⟩ :=
    broadcastLoop_spec msg st.clients st hcl hcl hopen
  exact ⟨rfl, rfl, st', hbl,
    fun id hid c hc hroom => ((hper id hid c hc).1 hroom).1⟩

/-- Witness for C3 (amended) with two connected local sessions. -/
theorem C3_amended_witness :
    mainStartup false = none ∧
    broadcastStep stPair ⟨"user1", "hey", 1⟩ false =
      broadcastStep stPair ⟨"user1", "hey", 1⟩ true ∧
    ∃ st', broadcastStep stPair ⟨"user1", "hey", 1⟩ false = some st' ∧
      ∀ id ∈ stPair.clients, ∀ c, lookupSession stPair id = some c →
        c.sendQueue.length < sendCap →
        lookupSession st' id =
          some { c with sendQueue := c.sendQueue ++ [⟨"user1", "hey", 1⟩] } :=
  C3_amended_local_delivery_despite_publish_failure stPair (by decide)
    ⟨"user1", "hey", 1⟩

/-- C4: the eviction path closes a session's queue and removes it from the
registry; when that session's reader loop then exits and sends the
mandatory unregister, `Hub.run` unconditionally executes
`close(client.send)` a second time — a Go run-time panic (`none`), not the
no-op the claim states.  The execution: "bob" connects, 257 copies of
`demoMsg` are routed with no drain (the 257th evicts him), then his
unregister arrives. -/
theorem C4_unregister_after_eviction_panics :
    routeIter 257 (registerStep NewHub "bob") = stateBobEvicted ∧
    0 ∉ stateBobEvicted.clients ∧
    lookupSession stateBobEvicted 0 =
      some ⟨"bob", List.replicate sendCap demoMsg, true⟩ ∧
    unregisterStep stateBobEvicted 0 = none :=
  ⟨routeIter_257, by decide, rfl, rfl⟩

/-- C5: the routing step emits exactly one publish of the Message to the
"chat" bus channel (the effect list is exactly one publish), and appends
exactly one copy of the Message to the queue of every registered session
with buffer room. -/
theorem C5_publish_once_enqueue_once (st : HubState) (hInv : Inv st)
    (msg : Message) (pubErr : Bool) :
    ∃ st', hubStep st (.route msg pubErr) =
        some (st', [Effect.redisPublish "chat" msg]) ∧
      ∀ id ∈ st.clients, ∀ c, lookupSession st id = some c →
        c.sendQueue.length < sendCap →
        lookupSession st' id =
          some { c with sendQueue := c.sendQueue ++ [msg] } := by
  obtain ⟨hcl, hkeys, hopen, hlt⟩ := hInv
  obtain ⟨st', hbl, _, _, _, _, hper⟩ :=
    broadcastLoop_spec msg st.clients st hcl hcl hopen
  refine ⟨st', ?_, fun id hid c hc hroom => ((hper id hid c hc).1 hroom).1⟩
  show (broadcastStep st msg pubErr).map _ = _
  rw [show broadcastStep st msg pubErr = some st' from hbl]
  rfl

/-- Witness for C5 with two registered sessions. -/
theorem C5_witness :
    ∃ st', hubStep stPair (.route ⟨"user1", "hey", 1⟩ true) =
        some (st', [Effect.redisPublish "chat" ⟨"user1", "hey", 1⟩]) ∧
      ∀ id ∈ stPair.clients, ∀ c, lookupSession stPair id = some c →
        c.sendQueue.length < sendCap →
        lookupSession st' id =
          some { c with sendQueue := c.sendQueue ++ [⟨"user1", "hey", 1⟩] } :=
  C5_publish_once_enqueue_once stPair (by decide) ⟨"user1", "hey", 1⟩ true

/-- C6: a full queue never blocks the routing step: the full session is
evicted on the spot (closed and removed from the registry) and the same
Message is still delivered to every other registered session with buffer
room. -/
theorem C6_full_queue_evicts_without_blocking (st : HubState) (hInv : Inv st)
    (msg : Message) (pubErr : Bool) (f : Nat) (hf : f ∈ st.clients)
    (cf : ClientState) (hcf : lookupSession st f = some cf)
    (hfull : ¬ cf.sendQueue.length < sendCap) :
    ∃ st', broadcastStep st msg pubErr = some st' ∧
      f ∉ st'.clients ∧
      lookupSession st' f = some { cf with sendClosed := true } ∧
      ∀ id ∈ st.clients, id ≠ f → ∀ c, lookupSession st id = some c →
        c.sendQueue.length < sendCap →
        lookupSession st' id =
          some { c with sendQueue := c.sendQueue ++ [msg] } := by
  obtain ⟨hcl, hkeys, hopen, hlt⟩ := hInv
  obtain ⟨st', hbl, _, _, _, _, hper⟩ :=
    broadcastLoop_spec msg st.clients st hcl hcl hopen
  obtain ⟨_, hfullc⟩ := hper f hf cf hcf
  obtain ⟨hlf, hnm⟩ := hfullc hfull
  exact ⟨st', hbl, hnm, hlf,
    fun id hid _ c hc hroom => ((hper id hid c hc).1 hroom).1⟩

set_option maxRecDepth 4000 in
/-- Witness for C6: "bob" has a full queue, "alice" an empty one. -/
theorem C6_witness :
    ∃ st', broadcastStep stTwoFull ⟨"alice", "hey", 2⟩ true = some st' ∧
      0 ∉ st'.clients ∧
      lookupSession st' 0 = some { (⟨"bob", List.replicate sendCap demoMsg,
        false⟩ : ClientState) with sendClosed := true } ∧
      ∀ id ∈ stTwoFull.clients, id ≠ 0 → ∀ c,
        lookupSession stTwoFull id = some c →
        c.sendQueue.length < sendCap →
        lookupSession st' id =
          some { c with sendQueue := c.sendQueue ++ [⟨"alice", "hey", 2⟩] } :=
  C6_full_queue_evicts_without_blocking stTwoFull (by decide)
    ⟨"alice", "hey", 2⟩ true 0 (by decide)
    ⟨"bob", List.replicate sendCap demoMsg, false⟩ rfl (by decide)

/-- C7: on every reachable hub state, broadcast iteration never sends on a
queue that has already been closed: the routing step never hits the
send-on-closed-channel panic (`none` arises exactly from a closed or
missing session under iteration).  Removal and queue-close happen inside
the same atomic step of the single `Hub.run` goroutine, so no interleaving
of register, unregister, eviction and broadcast steps can expose a closed
queue to the iteration. -/
theorem C7_broadcast_never_sends_after_close (st : HubState)
    (h : Reachable st) (msg : Message) (pubErr : Bool) :
    broadcastStep st msg pubErr ≠ none := by
  obtain ⟨hcl, hkeys, hopen, hlt⟩ := inv_of_reachable h
  obtain ⟨st', hbl, _⟩ := broadcastLoop_spec msg st.clients st hcl hcl hopen
  intro hcontra
  rw [show broadcastStep st msg pubErr =
    broadcastLoop msg st st.clients from rfl, hbl] at hcontra
  exact Option.noConfusion hcontra

/-- Witness for C7 at the reachable state with "alice" registered. -/
theorem C7_witness :
    broadcastStep stAlice ⟨"alice", "hi", 1⟩ true ≠ none :=
  C7_broadcast_never_sends_after_close stAlice
    (Relation.ReflTransGen.single
      (Step.mk (.accept [("user", "alice")]) NewHub stAlice _ rfl))
    ⟨"alice", "hi", 1⟩ true

/-- C8: a connection whose request lacks the `user` query parameter is
assigned the default identifier "anonymous", and the participantId stamped
on every routed frame is the accept-time identifier — when the client put a
different user_id in the frame, the stamped id is never that value. -/
theorem C8_default_identity_and_stamping (query : List (String × String))
    (hq : query.find? (fun p => p.fst == "user") = none) (frame : Message) :
    defaultQuery query "user" "anonymous" = "anonymous" ∧
    (∀ (user : String) (f : Message), (readPumpFrame user f).UserID = user) ∧
    (frame.UserID ≠ "anonymous" →
      (readPumpFrame (defaultQuery query "user" "anonymous") frame).UserID ≠
        frame.UserID) := by
  have hdq : defaultQuery query "user" "anonymous" = "anonymous" := by
    unfold defaultQuery
    rw [hq]
  refine ⟨hdq, fun _ _ => rfl, ?_⟩
  intro hne
  show defaultQuery query "user" "anonymous" ≠ frame.UserID
  rw [hdq]
  exact fun h => hne h.symm

/-- Witness for C8: a request carrying only an unrelated query parameter. -/
theorem C8_witness :
    defaultQuery [("other", "1")] "user" "anonymous" = "anonymous" ∧
    (∀ (user : String) (f : Message), (readPumpFrame user f).UserID = user) ∧
    ((⟨"mallory", "x", 2⟩ : Message).UserID ≠ "anonymous" →
      (readPumpFrame (defaultQuery [("other", "1")] "user" "anonymous")
        ⟨"mallory", "x", 2⟩).UserID ≠
        (⟨"mallory", "x", 2⟩ : Message).UserID) :=
  C8_default_identity_and_stamping [("other", "1")] (by decide)
    ⟨"mallory", "x", 2⟩

/-- C9 counterexample: a routing step whose publish fails emits only the
publish effect and no log line whatsoever — the failure is not reported to
any observability collaborator, refuting the claim's first half. -/
theorem C9_counterexample :
    (hubStep stAlice (.route ⟨"alice", "hi", 7⟩ false)).map
      (fun p => p.2.filter (fun e => isLogLine e)) = some [] := by
  rfl

/-- C9 (amended): the routing step discards the publish result: a failed
publish is silently ignored (the step emits no log/report effect) and the
step's outcome — state and effects — is identical to that of a successful
publish, so local broadcast continues unaffected. -/
theorem C9_amended_publish_failure_silently_ignored (st : HubState)
    (msg : Message) (st' : HubState) (effs : List Effect)
    (h : hubStep st (.route msg false) = some (st', effs)) :
    effs.filter (fun e => isLogLine e) = [] ∧
    hubStep st (.route msg true) = some (st', effs) := by
  have h1 : (broadcastStep st msg false).map (fun st0 =>
      (st0, ([Effect.redisPublish "chat" msg] : List Effect))) =
      some (st', effs) := h
  cases hb : broadcastStep st msg false with
  | none => rw [hb] at h1; exact Option.noConfusion h1
  | some st0 =>
    rw [hb] at h1
    have heffs := congrArg Prod.snd (Option.some.inj h1)
    simp only at heffs
    constructor
    · rw [← heffs]
      rfl
    · show (broadcastStep st msg true).map _ = _
      rw [show broadcastStep st msg true = broadcastStep st msg false from rfl,
        hb]
      exact h1

/-- Witness for C9 (amended) at a concrete routing step. -/
theorem C9_amended_witness :
    ([Effect.redisPublish "chat" ⟨"alice", "hi", 7⟩].filter
      (fun e => isLogLine e) = []) ∧
    hubStep stAlice (.route ⟨"alice", "hi", 7⟩ true) =
      some ({ sessions := [(0, ⟨"alice", [⟨"alice", "hi", 7⟩], false⟩)]
              clients := [0]
              nextId := 1 },
            [Effect.redisPublish "chat" ⟨"alice", "hi", 7⟩]) :=
  C9_amended_publish_failure_silently_ignored stAlice ⟨"alice", "hi", 7⟩
    _ _ rfl

/-- C10: between decoding a client frame and submitting it to the hub, the
reader loop modifies only the user_id field: the routed Message's text and
timestamp are exactly the client-supplied values (empty text and zero
timestamp included). -/
theorem C10_reader_modifies_only_user_id (user : String) (frame : Message) :
    readPumpFrame user frame = { frame with UserID := user } ∧
    (readPumpFrame user frame).Text = frame.Text ∧
    (readPumpFrame user frame).Timestamp = frame.Timestamp :=
  ⟨rfl, rfl, rfl⟩

end ChatService
